import Mathlib

/-!
# TriviaGame — shallow embedding and verification

A shallow embedding of the commit-reveal trivia contract
(`contracts/TriviaGame.sol`) together with proofs of its specified
properties.  Addresses, timestamps, token amounts and 32-byte hash values
are modelled as `Nat` (the all-zero `bytes32` sentinel becomes the number
`0`).  The keccak256 hash is an external primitive of the execution
environment, so every operation that hashes is parameterised by an
arbitrary function `hash : String → Nat`; `abi.encodePacked` of two
strings is byte concatenation, hence `keccak256(abi.encodePacked(a, s))`
is embedded as `hash (a ++ s)`.

The ERC-20 collaborator is modelled through the interface the contract
uses (`transfer : address → amount → bool`): the game contract holds
`contractBalance` tokens and a transfer of `amount` to `to` succeeds iff
`amount ≤ contractBalance`, moving the tokens into `tokenBalances to`.

Every external Solidity call either succeeds, producing a new state, or
reverts, leaving the chain state untouched: an operation is a function
into `Except GameError GameState`, and `applyOp` is the chain-level
transition that keeps the old state on error.
-/

namespace TriviaGame

/-- Errors of the contract; each corresponds to one `require` message
(`Unauthorized` is the `onlyOwner` modifier). -/
inductive GameError where
  | Unauthorized
  | InvalidState
  | AlreadyCommitted
  | NoCommitFound
  | AlreadyRevealed
  | HashMismatch
  | TransferFailed
deriving DecidableEq

/-- `struct Round` of TriviaGame.sol.  A mapping slot never written holds
the zero-valued struct, `Round.default`. -/
structure Round where
  startTime : Nat
  endTime : Nat
  question : String
  correctAnswer : String
  isActive : Bool
  totalPlayers : Nat
deriving DecidableEq

def Round.default : Round :=
  { startTime := 0, endTime := 0, question := "", correctAnswer := ""
    isActive := false, totalPlayers := 0 }

/-- `struct PlayerAnswer` of TriviaGame.sol.  `answerHash = 0` is the
sentinel meaning "no commitment". -/
structure PlayerAnswer where
  answerHash : Nat
  hasRevealed : Bool
  isCorrect : Bool
  commitTime : Nat
deriving DecidableEq

def PlayerAnswer.default : PlayerAnswer :=
  { answerHash := 0, hasRevealed := false, isCorrect := false, commitTime := 0 }

/-- The storage of the deployed contract plus the token balances it can
observe through the ERC-20 collaborator. -/
structure GameState where
  owner : Nat
  currentRoundId : Nat
  rounds : Nat → Round
  playerAnswers : Nat → Nat → PlayerAnswer
  playerScores : Nat → Nat
  playerStreaks : Nat → Nat
  lastPlayedRound : Nat → Nat
  contractBalance : Nat
  tokenBalances : Nat → Nat

/-- The state right after deployment: all mappings zero-valued,
`currentRoundId = 0`, the game contract funded with `bal` tokens. -/
def initState (owner bal : Nat) : GameState :=
  { owner := owner
    currentRoundId := 0
    rounds := fun _ => Round.default
    playerAnswers := fun _ _ => PlayerAnswer.default
    playerScores := fun _ => 0
    playerStreaks := fun _ => 0
    lastPlayedRound := fun _ => 0
    contractBalance := bal
    tokenBalances := fun _ => 0 }

-- Constants of the contract (token amounts in base units, 10^18 per token).
def ROUND_DURATION : Nat := 60
def CORRECT_REWARD : Nat := 10 * 10 ^ 18
def PARTICIPATION_REWARD : Nat := 1 * 10 ^ 18
def BONUS_REWARD : Nat := 5 * 10 ^ 18

/-- `triviaToken.transfer(to, amount)` as the game contract sees it:
`some` of the new state when the token reports success, `none` when it
reports failure (insufficient funds of the sender). -/
def tokenTransfer (s : GameState) (dst amount : Nat) : Option GameState :=
  if amount ≤ s.contractBalance then
    some { s with
            contractBalance := s.contractBalance - amount
            tokenBalances := fun a =>
              if a = dst then s.tokenBalances a + amount else s.tokenBalances a }
  else
    none

/-- `startNewRound(questionId, question, correctAnswer)` — owner only;
allocates `currentRoundId + 1`, stamps the time window and activates the
round.  The `questionId` argument is unused by the contract body. -/
def startNewRound (s : GameState) (caller now : Nat) (_questionId : Nat)
    (question correctAnswer : String) : Except GameError GameState :=
  if caller ≠ s.owner then .error .Unauthorized
  else
    let rid := s.currentRoundId + 1
    .ok { s with
      currentRoundId := rid
      rounds := fun r =>
        if r = rid then
          { startTime := now, endTime := now + ROUND_DURATION
            question := question, correctAnswer := correctAnswer
            isActive := true, totalPlayers := 0 }
        else s.rounds r }

/-- `commitAnswer(roundId, answerHash)`. -/
def commitAnswer (s : GameState) (caller now roundId answerHash : Nat) :
    Except GameError GameState :=
  if (s.rounds roundId).isActive = false then .error .InvalidState
  else if ¬ now < (s.rounds roundId).endTime then .error .InvalidState
  else if (s.playerAnswers roundId caller).answerHash ≠ 0 then .error .AlreadyCommitted
  else .ok { s with
    playerAnswers := fun r a =>
      if r = roundId ∧ a = caller then
        { answerHash := answerHash, hasRevealed := false
          isCorrect := false, commitTime := now }
      else s.playerAnswers r a
    rounds := fun r =>
      if r = roundId then
        { s.rounds r with totalPlayers := (s.rounds r).totalPlayers + 1 }
      else s.rounds r }

/-- `revealAnswer(roundId, answer, salt)`. -/
def revealAnswer (hash : String → Nat) (s : GameState) (caller now roundId : Nat)
    (answer salt : String) : Except GameError GameState :=
  if (s.rounds roundId).isActive = false then .error .InvalidState
  else if ¬ (s.rounds roundId).endTime ≤ now then .error .InvalidState
  else if (s.playerAnswers roundId caller).answerHash = 0 then .error .NoCommitFound
  else if (s.playerAnswers roundId caller).hasRevealed then .error .AlreadyRevealed
  else if (s.playerAnswers roundId caller).answerHash ≠ hash (answer ++ salt) then
    .error .HashMismatch
  else
    let correct : Bool := hash answer == hash (s.rounds roundId).correctAnswer
    .ok { s with
      playerAnswers := fun r a =>
        if r = roundId ∧ a = caller then
          { s.playerAnswers r a with hasRevealed := true, isCorrect := correct }
        else s.playerAnswers r a
      playerScores := fun a =>
        if a = caller ∧ correct then s.playerScores a + 1 else s.playerScores a
      playerStreaks := fun a =>
        if a = caller then (if correct then s.playerStreaks a + 1 else 0)
        else s.playerStreaks a
      lastPlayedRound := fun a =>
        if a = caller then roundId else s.lastPlayedRound a }

/-- The reward the loop body of `distributeRewards` computes for the entry
at array position `i` holding player `p` (0 when the entry is skipped
because the player has not revealed). -/
def entryReward (s : GameState) (roundId i p : Nat) : Nat :=
  let ans := s.playerAnswers roundId p
  if ans.hasRevealed then
    if ans.isCorrect then
      CORRECT_REWARD + (if i < 5 then BONUS_REWARD else 0)
    else PARTICIPATION_REWARD
  else 0

/-- The `for` loop of `distributeRewards`, with `i` the array position of
the head entry. -/
def distributeLoop (s : GameState) (roundId : Nat) (players : List Nat)
    (i : Nat) : Except GameError GameState :=
  match players with
  | [] => .ok s
  | p :: rest =>
    let ans := s.playerAnswers roundId p
    if ans.hasRevealed then
      let reward : Nat :=
        if ans.isCorrect then
          CORRECT_REWARD + (if i < 5 then BONUS_REWARD else 0)
        else PARTICIPATION_REWARD
      if reward > 0 then
        match tokenTransfer s p reward with
        | some s' => distributeLoop s' roundId rest (i + 1)
        | none => .error .TransferFailed
      else distributeLoop s roundId rest (i + 1)
    else distributeLoop s roundId rest (i + 1)

/-- `distributeRewards(roundId, players)` — owner only. -/
def distributeRewards (s : GameState) (caller now roundId : Nat)
    (players : List Nat) : Except GameError GameState :=
  if caller ≠ s.owner then .error .Unauthorized
  else if (s.rounds roundId).isActive = false then .error .InvalidState
  else if ¬ (s.rounds roundId).endTime ≤ now then .error .InvalidState
  else distributeLoop s roundId players 0

/-- `emergencyEndRound(roundId)` — owner only. -/
def emergencyEndRound (s : GameState) (caller roundId : Nat) :
    Except GameError GameState :=
  if caller ≠ s.owner then .error .Unauthorized
  else .ok { s with
    rounds := fun r =>
      if r = roundId then { s.rounds r with isActive := false } else s.rounds r }

-- Read-only views.

/-- `hasCommitted(player, roundId)`. -/
def hasCommitted (s : GameState) (player roundId : Nat) : Bool :=
  (s.playerAnswers roundId player).answerHash ≠ 0

/-- `hasRevealed(player, roundId)`. -/
def hasRevealedView (s : GameState) (player roundId : Nat) : Bool :=
  (s.playerAnswers roundId player).hasRevealed

/-- `isCorrect(player, roundId)`. -/
def isCorrectView (s : GameState) (player roundId : Nat) : Bool :=
  (s.playerAnswers roundId player).isCorrect

/-- `getScore(player)`. -/
def getScore (s : GameState) (player : Nat) : Nat := s.playerScores player

/-- `getStreak(player)`. -/
def getStreak (s : GameState) (player : Nat) : Nat := s.playerStreaks player

/-! ## Chain-level execution -/

/-- One external mutating call to the contract with its calldata, sender
and block timestamp. -/
inductive Op where
  | startNewRound (caller now questionId : Nat) (question correctAnswer : String)
  | commitAnswer (caller now roundId answerHash : Nat)
  | revealAnswer (caller now roundId : Nat) (answer salt : String)
  | distributeRewards (caller now roundId : Nat) (players : List Nat)
  | emergencyEndRound (caller roundId : Nat)

/-- Dispatch one call. -/
def execOp (hash : String → Nat) (s : GameState) : Op → Except GameError GameState
  | .startNewRound caller now qid q ca => startNewRound s caller now qid q ca
  | .commitAnswer caller now rid h => commitAnswer s caller now rid h
  | .revealAnswer caller now rid ans salt => revealAnswer hash s caller now rid ans salt
  | .distributeRewards caller now rid players => distributeRewards s caller now rid players
  | .emergencyEndRound caller rid => emergencyEndRound s caller rid

/-- The chain-level transition: a reverted call leaves storage unchanged. -/
def applyOp (hash : String → Nat) (s : GameState) (op : Op) : GameState :=
  match execOp hash s op with
  | .ok s' => s'
  | .error _ => s

/-- Run a sequence of calls. -/
def applyOps (hash : String → Nat) (s : GameState) : List Op → GameState
  | [] => s
  | op :: rest => applyOps hash (applyOp hash s op) rest

/-- Whether an `Except` result is a success. -/
def isOk {ε α : Type} : Except ε α → Bool
  | .ok _ => true
  | .error _ => false

@[simp] lemma isOk_ok {ε α : Type} (x : α) : isOk (Except.ok x : Except ε α) = true := rfl

@[simp] lemma isOk_error {ε α : Type} (e : ε) : isOk (Except.error e : Except ε α) = false := rfl

/-- Count the calls in a trace that satisfy `P` and succeed when reached. -/
def succCount (hash : String → Nat) (s : GameState) (P : Op → Bool) :
    List Op → Nat
  | [] => 0
  | op :: rest =>
    (if P op ∧ isOk (execOp hash s op) then 1 else 0)
      + succCount hash (applyOp hash s op) P rest

/-! ## Payout accounting -/

/-- Total amount owed to address `a` by the entries of `players`, the head
entry sitting at array position `i`. -/
def totalOwed (s : GameState) (roundId : Nat) (players : List Nat) (i a : Nat) : Nat :=
  match players with
  | [] => 0
  | p :: rest =>
    (if p = a then entryReward s roundId i p else 0) + totalOwed s roundId rest (i + 1) a

/-- Total amount the loop pays out over all entries of `players`. -/
def totalPayout (s : GameState) (roundId : Nat) (players : List Nat) (i : Nat) : Nat :=
  match players with
  | [] => 0
  | p :: rest => entryReward s roundId i p + totalPayout s roundId rest (i + 1)

lemma totalOwed_cons (s : GameState) (roundId p : Nat) (rest : List Nat) (i a : Nat) :
    totalOwed s roundId (p :: rest) i a =
      (if p = a then entryReward s roundId i p else 0)
        + totalOwed s roundId rest (i + 1) a := rfl

lemma totalPayout_cons (s : GameState) (roundId p : Nat) (rest : List Nat) (i : Nat) :
    totalPayout s roundId (p :: rest) i =
      entryReward s roundId i p + totalPayout s roundId rest (i + 1) := rfl

lemma entryReward_congr {s₁ s₂ : GameState} (h : s₁.playerAnswers = s₂.playerAnswers)
    (roundId i p : Nat) : entryReward s₁ roundId i p = entryReward s₂ roundId i p := by
  unfold entryReward
  rw [h]

lemma totalOwed_congr {s₁ s₂ : GameState} (h : s₁.playerAnswers = s₂.playerAnswers)
    (roundId : Nat) (players : List Nat) :
    ∀ i a, totalOwed s₁ roundId players i a = totalOwed s₂ roundId players i a := by
  induction players with
  | nil => intro i a; rfl
  | cons p rest ih =>
    intro i a
    unfold totalOwed
    rw [entryReward_congr h, ih]

lemma totalPayout_congr {s₁ s₂ : GameState} (h : s₁.playerAnswers = s₂.playerAnswers)
    (roundId : Nat) (players : List Nat) :
    ∀ i, totalPayout s₁ roundId players i = totalPayout s₂ roundId players i := by
  induction players with
  | nil => intro i; rfl
  | cons p rest ih =>
    intro i
    unfold totalPayout
    rw [entryReward_congr h, ih]

lemma rewards_pos : 0 < CORRECT_REWARD ∧ 0 < PARTICIPATION_REWARD ∧ 0 < BONUS_REWARD := by
  refine ⟨?_, ?_, ?_⟩ <;>
    norm_num [CORRECT_REWARD, PARTICIPATION_REWARD, BONUS_REWARD]

lemma distributeLoop_cons (s : GameState) (roundId p : Nat) (rest : List Nat) (i : Nat) :
    distributeLoop s roundId (p :: rest) i =
      if (s.playerAnswers roundId p).hasRevealed then
        (if (if (s.playerAnswers roundId p).isCorrect then
              CORRECT_REWARD + (if i < 5 then BONUS_REWARD else 0)
            else PARTICIPATION_REWARD) > 0 then
          match tokenTransfer s p
              (if (s.playerAnswers roundId p).isCorrect then
                CORRECT_REWARD + (if i < 5 then BONUS_REWARD else 0)
              else PARTICIPATION_REWARD) with
          | some s' => distributeLoop s' roundId rest (i + 1)
          | none => .error .TransferFailed
        else distributeLoop s roundId rest (i + 1))
      else distributeLoop s roundId rest (i + 1) := rfl

/-- Full characterisation of the reward loop: with enough funds it succeeds,
touches nothing but token balances, and credits every address exactly what
the per-entry rule owes it; with insufficient funds it reverts with
`TransferFailed`. -/
lemma distributeLoop_spec (roundId : Nat) (players : List Nat) :
    ∀ (s : GameState) (i : Nat),
      (totalPayout s roundId players i ≤ s.contractBalance →
        ∃ s', distributeLoop s roundId players i = .ok s' ∧
          s'.rounds = s.rounds ∧ s'.playerAnswers = s.playerAnswers ∧
          s'.playerScores = s.playerScores ∧ s'.playerStreaks = s.playerStreaks ∧
          s'.lastPlayedRound = s.lastPlayedRound ∧ s'.owner = s.owner ∧
          s'.currentRoundId = s.currentRoundId ∧
          s'.contractBalance = s.contractBalance - totalPayout s roundId players i ∧
          ∀ a, s'.tokenBalances a = s.tokenBalances a + totalOwed s roundId players i a)
      ∧ (s.contractBalance < totalPayout s roundId players i →
          distributeLoop s roundId players i = .error .TransferFailed) := by
  induction players with
  | nil =>
    intro s i
    constructor
    · intro _
      exact ⟨s, rfl, rfl, rfl, rfl, rfl, rfl, rfl, rfl, by simp [totalPayout], fun a => by simp [totalOwed]⟩
    · intro h
      simp [totalPayout] at h
  | cons p rest ih =>
    intro s i
    by_cases hrev : (s.playerAnswers roundId p).hasRevealed = true
    · -- revealed: a transfer of `entryReward` happens before the tail runs
      set reward : Nat :=
        if (s.playerAnswers roundId p).isCorrect then
          CORRECT_REWARD + (if i < 5 then BONUS_REWARD else 0)
        else PARTICIPATION_REWARD with hreward
      have hrpos : reward > 0 := by
        rw [hreward]
        rcases rewards_pos with ⟨h1, h2, h3⟩
        split <;> omega
      have hentry : entryReward s roundId i p = reward := by
        rw [hreward]
        unfold entryReward
        simp only [hrev, if_true]
      by_cases hbal : reward ≤ s.contractBalance
      · -- transfer succeeds
        set s₂ : GameState :=
          { s with
              contractBalance := s.contractBalance - reward
              tokenBalances := fun a =>
                if a = p then s.tokenBalances a + reward else s.tokenBalances a } with hs₂
        have htr : tokenTransfer s p reward = some s₂ := by
          unfold tokenTransfer
          simp [hbal, hs₂]
        have hloop : distributeLoop s roundId (p :: rest) i
            = distributeLoop s₂ roundId rest (i + 1) := by
          rw [distributeLoop_cons, ← hreward, if_pos hrev, if_pos hrpos, htr]
        have hpa : s₂.playerAnswers = s.playerAnswers := rfl
        have hpay : totalPayout s₂ roundId rest (i + 1) = totalPayout s roundId rest (i + 1) :=
          totalPayout_congr hpa roundId rest (i + 1)
        have howed : ∀ a, totalOwed s₂ roundId rest (i + 1) a = totalOwed s roundId rest (i + 1) a :=
          fun a => totalOwed_congr hpa roundId rest (i + 1) a
        have htot : totalPayout s roundId (p :: rest) i
            = reward + totalPayout s roundId rest (i + 1) := by
          rw [totalPayout_cons, hentry]
        constructor
        · intro hle
          rw [htot] at hle
          obtain ⟨s', hs', hr, hpa', hsc, hst, hlp, how, hcr, hcb, htb⟩ :=
            (ih s₂ (i + 1)).1 (by simp only [hpay, hs₂]; omega)
          refine ⟨s', by rw [hloop]; exact hs', hr, hpa', hsc, hst, hlp, how, hcr, ?_, ?_⟩
          · rw [hcb, htot, hpay]
            simp only [hs₂]
            omega
          · intro a
            rw [htb a, howed a, totalOwed_cons, hentry]
            simp only [hs₂]
            by_cases hap : a = p
            · simp [hap]
              omega
            · have : ¬ p = a := fun h => hap h.symm
              simp [hap, this]
        · intro hlt
          rw [htot] at hlt
          rw [hloop]
          apply (ih s₂ (i + 1)).2
          simp only [hpay, hs₂]
          omega
      · -- transfer fails
        have htr : tokenTransfer s p reward = none := by
          unfold tokenTransfer
          simp [hbal]
        have hloop : distributeLoop s roundId (p :: rest) i = .error .TransferFailed := by
          rw [distributeLoop_cons, ← hreward, if_pos hrev, if_pos hrpos, htr]
        constructor
        · intro hle
          exfalso
          have htot : totalPayout s roundId (p :: rest) i
              = reward + totalPayout s roundId rest (i + 1) := by
            rw [totalPayout_cons, hentry]
          omega
        · intro _
          exact hloop
    · -- not revealed: skipped, zero owed
      have hentry : entryReward s roundId i p = 0 := by
        unfold entryReward
        simp [hrev]
      have hloop : distributeLoop s roundId (p :: rest) i
          = distributeLoop s roundId rest (i + 1) := by
        rw [distributeLoop_cons, if_neg hrev]
      have htot : totalPayout s roundId (p :: rest) i = totalPayout s roundId rest (i + 1) := by
        rw [totalPayout_cons, hentry]
        omega
      constructor
      · intro hle
        rw [htot] at hle
        obtain ⟨s', hs', hr, hpa', hsc, hst, hlp, how, hcr, hcb, htb⟩ := (ih s (i + 1)).1 hle
        refine ⟨s', by rw [hloop]; exact hs', hr, hpa', hsc, hst, hlp, how, hcr, ?_, ?_⟩
        · rw [hcb, htot]
        · intro a
          rw [htb a, totalOwed_cons, hentry]
          simp
      · intro hlt
        rw [htot] at hlt
        rw [hloop]
        exact (ih s (i + 1)).2 hlt

/-! ## Inversion and frame lemmas -/

lemma bool_ne_false {b : Bool} (h : ¬ b = false) : b = true := by
  cases b
  · exact absurd rfl h
  · rfl

lemma bool_ne_true {b : Bool} (h : ¬ b = true) : b = false := by
  cases b
  · rfl
  · exact absurd rfl h

lemma applyOp_of_ok {hash : String → Nat} {s s' : GameState} {op : Op}
    (h : execOp hash s op = .ok s') : applyOp hash s op = s' := by
  unfold applyOp
  rw [h]

lemma applyOp_of_error {hash : String → Nat} {s : GameState} {op : Op} {e : GameError}
    (h : execOp hash s op = .error e) : applyOp hash s op = s := by
  unfold applyOp
  rw [h]

lemma startNewRound_ok_inv {s s' : GameState} {caller now qid : Nat}
    {question correctAnswer : String}
    (hok : startNewRound s caller now qid question correctAnswer = .ok s') :
    caller = s.owner ∧
    s' = { s with
      currentRoundId := s.currentRoundId + 1
      rounds := fun r =>
        if r = s.currentRoundId + 1 then
          { startTime := now, endTime := now + ROUND_DURATION
            question := question, correctAnswer := correctAnswer
            isActive := true, totalPlayers := 0 }
        else s.rounds r } := by
  unfold startNewRound at hok
  split_ifs at hok with h1
  injection hok with h
  exact ⟨not_not.mp h1, h.symm⟩

lemma commitAnswer_ok_inv {s s' : GameState} {caller now roundId h : Nat}
    (hok : commitAnswer s caller now roundId h = .ok s') :
    (s.rounds roundId).isActive = true ∧ now < (s.rounds roundId).endTime ∧
    (s.playerAnswers roundId caller).answerHash = 0 ∧
    s' = { s with
      playerAnswers := fun r a =>
        if r = roundId ∧ a = caller then
          { answerHash := h, hasRevealed := false
            isCorrect := false, commitTime := now }
        else s.playerAnswers r a
      rounds := fun r =>
        if r = roundId then
          { s.rounds r with totalPlayers := (s.rounds r).totalPlayers + 1 }
        else s.rounds r } := by
  unfold commitAnswer at hok
  split_ifs at hok with h1 h2 h3
  injection hok with h
  exact ⟨bool_ne_false h1, h2, not_not.mp h3, h.symm⟩

lemma revealAnswer_ok_inv {hash : String → Nat} {s s' : GameState}
    {caller now roundId : Nat} {answer salt : String}
    (hok : revealAnswer hash s caller now roundId answer salt = .ok s') :
    (s.rounds roundId).isActive = true ∧ (s.rounds roundId).endTime ≤ now ∧
    (s.playerAnswers roundId caller).answerHash ≠ 0 ∧
    (s.playerAnswers roundId caller).hasRevealed = false ∧
    (s.playerAnswers roundId caller).answerHash = hash (answer ++ salt) ∧
    s' = { s with
      playerAnswers := fun r a =>
        if r = roundId ∧ a = caller then
          { s.playerAnswers r a with
              hasRevealed := true,
              isCorrect := hash answer == hash (s.rounds roundId).correctAnswer }
        else s.playerAnswers r a
      playerScores := fun a =>
        if a = caller ∧ (hash answer == hash (s.rounds roundId).correctAnswer)
        then s.playerScores a + 1 else s.playerScores a
      playerStreaks := fun a =>
        if a = caller then
          (if (hash answer == hash (s.rounds roundId).correctAnswer)
           then s.playerStreaks a + 1 else 0)
        else s.playerStreaks a
      lastPlayedRound := fun a =>
        if a = caller then roundId else s.lastPlayedRound a } := by
  unfold revealAnswer at hok
  split_ifs at hok with h1 h2 h3 h4 h5
  injection hok with h
  exact ⟨bool_ne_false h1, h2, h3, bool_ne_true h4, not_not.mp h5, h.symm⟩

lemma distributeLoop_ok_frame {s s' : GameState} {roundId i : Nat} {players : List Nat}
    (h : distributeLoop s roundId players i = .ok s') :
    s'.rounds = s.rounds ∧ s'.playerAnswers = s.playerAnswers ∧
    s'.playerScores = s.playerScores ∧ s'.playerStreaks = s.playerStreaks ∧
    s'.lastPlayedRound = s.lastPlayedRound ∧ s'.owner = s.owner ∧
    s'.currentRoundId = s.currentRoundId := by
  rcases Nat.lt_or_ge s.contractBalance (totalPayout s roundId players i) with hlt | hge
  · rw [(distributeLoop_spec roundId players s i).2 hlt] at h
    exact absurd h (by simp)
  · obtain ⟨s'', hok, hr, hpa, hsc, hst, hlp, how, hcr, -, -⟩ :=
      (distributeLoop_spec roundId players s i).1 hge
    rw [hok] at h
    obtain rfl : s'' = s' := (Except.ok.injEq _ _).mp h
    exact ⟨hr, hpa, hsc, hst, hlp, how, hcr⟩

lemma distributeRewards_ok_inv {s s' : GameState} {caller now roundId : Nat}
    {players : List Nat}
    (hok : distributeRewards s caller now roundId players = .ok s') :
    caller = s.owner ∧ (s.rounds roundId).isActive = true ∧
    (s.rounds roundId).endTime ≤ now ∧
    distributeLoop s roundId players 0 = .ok s' := by
  unfold distributeRewards at hok
  split_ifs at hok with h1 h2 h3
  exact ⟨not_not.mp h1, bool_ne_false h2, h3, hok⟩

lemma emergencyEndRound_ok_inv {s s' : GameState} {caller roundId : Nat}
    (hok : emergencyEndRound s caller roundId = .ok s') :
    caller = s.owner ∧
    s' = { s with
      rounds := fun r =>
        if r = roundId then { s.rounds r with isActive := false }
        else s.rounds r } := by
  unfold emergencyEndRound at hok
  split_ifs at hok with h1
  injection hok with h
  exact ⟨not_not.mp h1, h.symm⟩

/-! ## Trace predicates and step invariants -/

/-- A `commitAnswer` call by address `a` for round `r` carrying a
non-sentinel hash. -/
def isCommitFor (r a : Nat) : Op → Bool
  | .commitAnswer caller _ roundId h => caller == a && roundId == r && !(h == 0)
  | _ => false

/-- A `revealAnswer` call by address `a` for round `r`. -/
def isRevealFor (r a : Nat) : Op → Bool
  | .revealAnswer caller _ roundId _ _ => caller == a && roundId == r
  | _ => false

/-- A `startNewRound` call. -/
def isStartRound : Op → Bool
  | .startNewRound _ _ _ _ _ => true
  | _ => false

/-- An `emergencyEndRound` call. -/
def isEmergencyEnd : Op → Bool
  | .emergencyEndRound _ _ => true
  | _ => false

lemma applyOps_cons (hash : String → Nat) (s : GameState) (op : Op) (ops : List Op) :
    applyOps hash s (op :: ops) = applyOps hash (applyOp hash s op) ops := rfl

lemma succCount_cons (hash : String → Nat) (s : GameState) (P : Op → Bool)
    (op : Op) (ops : List Op) :
    succCount hash s P (op :: ops) =
      (if P op ∧ isOk (execOp hash s op) then 1 else 0)
        + succCount hash (applyOp hash s op) P ops := rfl

/-- Once a non-sentinel hash is stored, every further commit for that slot
reverts. -/
lemma commitAnswer_blocked {s : GameState} {caller now roundId h : Nat}
    (hne : (s.playerAnswers roundId caller).answerHash ≠ 0) :
    isOk (commitAnswer s caller now roundId h) = false := by
  unfold commitAnswer
  split_ifs with h1 h2 h3
  all_goals first
    | rfl
    | exact absurd (not_not.mp h3) hne

/-- Once revealed, every further reveal for that slot reverts. -/
lemma revealAnswer_blocked {hash : String → Nat} {s : GameState}
    {caller now roundId : Nat} {answer salt : String}
    (hrev : (s.playerAnswers roundId caller).hasRevealed = true) :
    isOk (revealAnswer hash s caller now roundId answer salt) = false := by
  unfold revealAnswer
  split_ifs with h1 h2 h3 h4 h5
  all_goals first
    | rfl
    | exact absurd hrev h4

/-- No operation ever turns a non-sentinel stored hash back into the
sentinel. -/
lemma applyOp_answerHash_persists (hash : String → Nat) (s : GameState) (op : Op)
    (r a : Nat) (hne : (s.playerAnswers r a).answerHash ≠ 0) :
    ((applyOp hash s op).playerAnswers r a).answerHash ≠ 0 := by
  cases hop : execOp hash s op with
  | error e =>
    rw [applyOp_of_error hop]
    exact hne
  | ok s' =>
    rw [applyOp_of_ok hop]
    cases op with
    | startNewRound c n qid q ca =>
      obtain ⟨-, rfl⟩ := startNewRound_ok_inv (show startNewRound s c n qid q ca = .ok s' from hop)
      exact hne
    | commitAnswer c n rid h =>
      obtain ⟨-, -, hzero, rfl⟩ :=
        commitAnswer_ok_inv (show commitAnswer s c n rid h = .ok s' from hop)
      show ((if r = rid ∧ a = c then _ else s.playerAnswers r a) : PlayerAnswer).answerHash ≠ 0
      by_cases hc : r = rid ∧ a = c
      · obtain ⟨rfl, rfl⟩ := hc
        exact absurd hzero hne
      · rw [if_neg hc]
        exact hne
    | revealAnswer c n rid ans salt =>
      obtain ⟨-, -, hne', -, -, rfl⟩ :=
        revealAnswer_ok_inv (show revealAnswer hash s c n rid ans salt = .ok s' from hop)
      show ((if r = rid ∧ a = c then _ else s.playerAnswers r a) : PlayerAnswer).answerHash ≠ 0
      by_cases hc : r = rid ∧ a = c
      · obtain ⟨rfl, rfl⟩ := hc
        simpa using hne
      · rw [if_neg hc]
        exact hne
    | distributeRewards c n rid players =>
      obtain ⟨-, -, -, hloop⟩ :=
        distributeRewards_ok_inv (show distributeRewards s c n rid players = .ok s' from hop)
      obtain ⟨-, hpa, -, -, -, -, -⟩ := distributeLoop_ok_frame hloop
      rw [hpa]
      exact hne
    | emergencyEndRound c rid =>
      obtain ⟨-, rfl⟩ :=
        emergencyEndRound_ok_inv (show emergencyEndRound s c rid = .ok s' from hop)
      exact hne

/-- Once a slot is committed-and-revealed it stays that way forever. -/
lemma applyOp_revealed_persists (hash : String → Nat) (s : GameState) (op : Op)
    (r a : Nat) (hne : (s.playerAnswers r a).answerHash ≠ 0)
    (hrev : (s.playerAnswers r a).hasRevealed = true) :
    ((applyOp hash s op).playerAnswers r a).answerHash ≠ 0 ∧
    ((applyOp hash s op).playerAnswers r a).hasRevealed = true := by
  refine ⟨applyOp_answerHash_persists hash s op r a hne, ?_⟩
  cases hop : execOp hash s op with
  | error e =>
    rw [applyOp_of_error hop]
    exact hrev
  | ok s' =>
    rw [applyOp_of_ok hop]
    cases op with
    | startNewRound c n qid q ca =>
      obtain ⟨-, rfl⟩ := startNewRound_ok_inv (show startNewRound s c n qid q ca = .ok s' from hop)
      exact hrev
    | commitAnswer c n rid h =>
      obtain ⟨-, -, hzero, rfl⟩ :=
        commitAnswer_ok_inv (show commitAnswer s c n rid h = .ok s' from hop)
      show ((if r = rid ∧ a = c then _ else s.playerAnswers r a) : PlayerAnswer).hasRevealed = true
      by_cases hc : r = rid ∧ a = c
      · obtain ⟨rfl, rfl⟩ := hc
        exact absurd hzero hne
      · rw [if_neg hc]
        exact hrev
    | revealAnswer c n rid ans salt =>
      obtain ⟨-, -, -, -, -, rfl⟩ :=
        revealAnswer_ok_inv (show revealAnswer hash s c n rid ans salt = .ok s' from hop)
      show ((if r = rid ∧ a = c then _ else s.playerAnswers r a) : PlayerAnswer).hasRevealed = true
      by_cases hc : r = rid ∧ a = c
      · rw [if_pos hc]
      · rw [if_neg hc]
        exact hrev
    | distributeRewards c n rid players =>
      obtain ⟨-, -, -, hloop⟩ :=
        distributeRewards_ok_inv (show distributeRewards s c n rid players = .ok s' from hop)
      obtain ⟨-, hpa, -, -, -, -, -⟩ := distributeLoop_ok_frame hloop
      rw [hpa]
      exact hrev
    | emergencyEndRound c rid =>
      obtain ⟨-, rfl⟩ :=
        emergencyEndRound_ok_inv (show emergencyEndRound s c rid = .ok s' from hop)
      exact hrev

/-- After a slot holds a non-sentinel hash, no further non-sentinel commit
for it succeeds in any continuation of the trace. -/
lemma succCount_commit_zero (hash : String → Nat) (r a : Nat) :
    ∀ (ops : List Op) (s : GameState),
      (s.playerAnswers r a).answerHash ≠ 0 →
      succCount hash s (isCommitFor r a) ops = 0 := by
  intro ops
  induction ops with
  | nil => intro s _; rfl
  | cons op rest ih =>
    intro s hne
    rw [succCount_cons]
    have hhead : (if isCommitFor r a op ∧ isOk (execOp hash s op) then 1 else 0) = 0 := by
      by_cases hP : isCommitFor r a op = true
      · cases op with
        | commitAnswer c n rid h =>
          obtain ⟨rfl, rfl, -⟩ : c = a ∧ rid = r ∧ ¬ h = 0 := by
            simpa [isCommitFor, and_assoc] using hP
          have hblk : isOk (commitAnswer s c n rid h) = false := commitAnswer_blocked hne
          rw [if_neg]
          intro hcon
          rw [show execOp hash s (Op.commitAnswer c n rid h) = commitAnswer s c n rid h from rfl,
            hblk] at hcon
          exact absurd hcon.2 (by simp)
        | startNewRound c n qid q ca => simp [isCommitFor] at hP
        | revealAnswer c n rid ans salt => simp [isCommitFor] at hP
        | distributeRewards c n rid players => simp [isCommitFor] at hP
        | emergencyEndRound c rid => simp [isCommitFor] at hP
      · rw [if_neg]
        intro hcon
        exact hP hcon.1
    rw [hhead, Nat.zero_add]
    exact ih (applyOp hash s op) (applyOp_answerHash_persists hash s op r a hne)

/-- In any trace from any state, at most one non-sentinel commit for a
given `(round, address)` slot succeeds. -/
lemma succCount_commit_le_one (hash : String → Nat) (r a : Nat) :
    ∀ (ops : List Op) (s : GameState), succCount hash s (isCommitFor r a) ops ≤ 1 := by
  intro ops
  induction ops with
  | nil => intro s; exact Nat.zero_le 1
  | cons op rest ih =>
    intro s
    rw [succCount_cons]
    by_cases hcond : isCommitFor r a op = true ∧ isOk (execOp hash s op) = true
    · obtain ⟨hP, hOk⟩ := hcond
      cases op with
      | commitAnswer c n rid h =>
        obtain ⟨rfl, rfl, hh⟩ : c = a ∧ rid = r ∧ ¬ h = 0 := by
          simpa [isCommitFor, and_assoc] using hP
        cases hex : commitAnswer s c n rid h with
        | error e =>
          rw [show execOp hash s (Op.commitAnswer c n rid h) = commitAnswer s c n rid h from rfl,
            hex] at hOk
          exact absurd hOk (by simp [isOk])
        | ok s' =>
          have hex' : execOp hash s (Op.commitAnswer c n rid h) = .ok s' := hex
          have hne' :
              (((applyOp hash s (Op.commitAnswer c n rid h)).playerAnswers rid c).answerHash ≠ 0) := by
            obtain ⟨-, -, -, rfl⟩ := commitAnswer_ok_inv hex
            rw [applyOp_of_ok hex']
            simpa using hh
          rw [succCount_commit_zero hash rid c rest _ hne']
          split <;> omega
      | startNewRound c n qid q ca => simp [isCommitFor] at hP
      | revealAnswer c n rid ans salt => simp [isCommitFor] at hP
      | distributeRewards c n rid players => simp [isCommitFor] at hP
      | emergencyEndRound c rid => simp [isCommitFor] at hP
    · have hhead : (if isCommitFor r a op ∧ isOk (execOp hash s op) then 1 else 0) = 0 := by
        rw [if_neg]
        intro hcon
        exact hcond ⟨hcon.1, hcon.2⟩
      rw [hhead, Nat.zero_add]
      exact ih (applyOp hash s op)

/-- After a slot is committed-and-revealed, no further reveal for it
succeeds in any continuation of the trace. -/
lemma succCount_reveal_zero (hash : String → Nat) (r a : Nat) :
    ∀ (ops : List Op) (s : GameState),
      (s.playerAnswers r a).answerHash ≠ 0 →
      (s.playerAnswers r a).hasRevealed = true →
      succCount hash s (isRevealFor r a) ops = 0 := by
  intro ops
  induction ops with
  | nil => intro s _ _; rfl
  | cons op rest ih =>
    intro s hne hrev
    rw [succCount_cons]
    have hhead : (if isRevealFor r a op ∧ isOk (execOp hash s op) then 1 else 0) = 0 := by
      by_cases hP : isRevealFor r a op = true
      · cases op with
        | revealAnswer c n rid ans salt =>
          obtain ⟨rfl, rfl⟩ : c = a ∧ rid = r := by simpa [isRevealFor] using hP
          have hblk : isOk (revealAnswer hash s c n rid ans salt) = false :=
            revealAnswer_blocked hrev
          rw [if_neg]
          intro hcon
          rw [show execOp hash s (Op.revealAnswer c n rid ans salt)
              = revealAnswer hash s c n rid ans salt from rfl, hblk] at hcon
          exact absurd hcon.2 (by simp)
        | startNewRound c n qid q ca => simp [isRevealFor] at hP
        | commitAnswer c n rid h => simp [isRevealFor] at hP
        | distributeRewards c n rid players => simp [isRevealFor] at hP
        | emergencyEndRound c rid => simp [isRevealFor] at hP
      · rw [if_neg]
        intro hcon
        exact hP hcon.1
    rw [hhead, Nat.zero_add]
    obtain ⟨hne', hrev'⟩ := applyOp_revealed_persists hash s op r a hne hrev
    exact ih (applyOp hash s op) hne' hrev'

/-- In any trace from any state, at most one reveal for a given
`(round, address)` slot succeeds. -/
lemma succCount_reveal_le_one (hash : String → Nat) (r a : Nat) :
    ∀ (ops : List Op) (s : GameState), succCount hash s (isRevealFor r a) ops ≤ 1 := by
  intro ops
  induction ops with
  | nil => intro s; exact Nat.zero_le 1
  | cons op rest ih =>
    intro s
    rw [succCount_cons]
    by_cases hcond : isRevealFor r a op = true ∧ isOk (execOp hash s op) = true
    · obtain ⟨hP, hOk⟩ := hcond
      cases op with
      | revealAnswer c n rid ans salt =>
        obtain ⟨rfl, rfl⟩ : c = a ∧ rid = r := by simpa [isRevealFor] using hP
        cases hex : revealAnswer hash s c n rid ans salt with
        | error e =>
          rw [show execOp hash s (Op.revealAnswer c n rid ans salt)
              = revealAnswer hash s c n rid ans salt from rfl, hex] at hOk
          exact absurd hOk (by simp [isOk])
        | ok s' =>
          have hex' : execOp hash s (Op.revealAnswer c n rid ans salt) = .ok s' := hex
          have hinv :
              (((applyOp hash s (Op.revealAnswer c n rid ans salt)).playerAnswers rid c).answerHash ≠ 0)
              ∧ (((applyOp hash s (Op.revealAnswer c n rid ans salt)).playerAnswers rid c).hasRevealed = true) := by
            obtain ⟨-, -, hne0, -, -, rfl⟩ := revealAnswer_ok_inv hex
            rw [applyOp_of_ok hex']
            constructor
            · simpa using hne0
            · simp
          rw [succCount_reveal_zero hash rid c rest _ hinv.1 hinv.2]
          split <;> omega
      | startNewRound c n qid q ca => simp [isRevealFor] at hP
      | commitAnswer c n rid h => simp [isRevealFor] at hP
      | distributeRewards c n rid players => simp [isRevealFor] at hP
      | emergencyEndRound c rid => simp [isRevealFor] at hP
    · have hhead : (if isRevealFor r a op ∧ isOk (execOp hash s op) then 1 else 0) = 0 := by
        rw [if_neg]
        intro hcon
        exact hcond ⟨hcon.1, hcon.2⟩
      rw [hhead, Nat.zero_add]
      exact ih (applyOp hash s op)

/-- No operation ever decreases any player's score. -/
lemma applyOp_score_mono (hash : String → Nat) (s : GameState) (op : Op) (a : Nat) :
    s.playerScores a ≤ (applyOp hash s op).playerScores a := by
  cases hop : execOp hash s op with
  | error e =>
    rw [applyOp_of_error hop]
  | ok s' =>
    rw [applyOp_of_ok hop]
    cases op with
    | startNewRound c n qid q ca =>
      obtain ⟨-, rfl⟩ := startNewRound_ok_inv (show startNewRound s c n qid q ca = .ok s' from hop)
      exact Nat.le_refl _
    | commitAnswer c n rid h =>
      obtain ⟨-, -, -, rfl⟩ :=
        commitAnswer_ok_inv (show commitAnswer s c n rid h = .ok s' from hop)
      exact Nat.le_refl _
    | revealAnswer c n rid ans salt =>
      obtain ⟨-, -, -, -, -, rfl⟩ :=
        revealAnswer_ok_inv (show revealAnswer hash s c n rid ans salt = .ok s' from hop)
      show s.playerScores a ≤ (if a = c ∧ _ then s.playerScores a + 1 else s.playerScores a)
      split <;> omega
    | distributeRewards c n rid players =>
      obtain ⟨-, -, -, hloop⟩ :=
        distributeRewards_ok_inv (show distributeRewards s c n rid players = .ok s' from hop)
      obtain ⟨-, -, hsc, -, -, -, -⟩ := distributeLoop_ok_frame hloop
      rw [hsc]
    | emergencyEndRound c rid =>
      obtain ⟨-, rfl⟩ :=
        emergencyEndRound_ok_inv (show emergencyEndRound s c rid = .ok s' from hop)
      exact Nat.le_refl _

/-- Only `emergencyEndRound` can turn an active round inactive: every
other operation preserves `isActive = true`, whatever the timestamp. -/
lemma applyOp_active_persists (hash : String → Nat) (s : GameState) (op : Op) (r : Nat)
    (hop : isEmergencyEnd op = false) (hact : (s.rounds r).isActive = true) :
    ((applyOp hash s op).rounds r).isActive = true := by
  cases hex : execOp hash s op with
  | error e =>
    rw [applyOp_of_error hex]
    exact hact
  | ok s' =>
    rw [applyOp_of_ok hex]
    cases op with
    | startNewRound c n qid q ca =>
      obtain ⟨-, rfl⟩ := startNewRound_ok_inv (show startNewRound s c n qid q ca = .ok s' from hex)
      show ((if r = s.currentRoundId + 1 then _ else s.rounds r) : Round).isActive = true
      by_cases hc : r = s.currentRoundId + 1
      · rw [if_pos hc]
      · rw [if_neg hc]
        exact hact
    | commitAnswer c n rid h =>
      obtain ⟨-, -, -, rfl⟩ :=
        commitAnswer_ok_inv (show commitAnswer s c n rid h = .ok s' from hex)
      show ((if r = rid then _ else s.rounds r) : Round).isActive = true
      by_cases hc : r = rid
      · subst hc
        rw [if_pos rfl]
        exact hact
      · rw [if_neg hc]
        exact hact
    | revealAnswer c n rid ans salt =>
      obtain ⟨-, -, -, -, -, rfl⟩ :=
        revealAnswer_ok_inv (show revealAnswer hash s c n rid ans salt = .ok s' from hex)
      exact hact
    | distributeRewards c n rid players =>
      obtain ⟨-, -, -, hloop⟩ :=
        distributeRewards_ok_inv (show distributeRewards s c n rid players = .ok s' from hex)
      obtain ⟨hr, -, -, -, -, -, -⟩ := distributeLoop_ok_frame hloop
      rw [hr]
      exact hact
    | emergencyEndRound c rid => simp [isEmergencyEnd] at hop

/-- `currentRoundId` moves exactly when a `startNewRound` call succeeds,
and then by exactly one. -/
lemma applyOp_currentRoundId (hash : String → Nat) (s : GameState) (op : Op) :
    (applyOp hash s op).currentRoundId =
      s.currentRoundId + (if isStartRound op ∧ isOk (execOp hash s op) then 1 else 0) := by
  cases hex : execOp hash s op with
  | error e =>
    rw [applyOp_of_error hex]
    have hno : ¬ (isStartRound op = true ∧ isOk (Except.error e : Except GameError GameState) = true) := by
      simp
    rw [if_neg hno]
    rfl
  | ok s' =>
    rw [applyOp_of_ok hex]
    cases op with
    | startNewRound c n qid q ca =>
      obtain ⟨-, rfl⟩ := startNewRound_ok_inv (show startNewRound s c n qid q ca = .ok s' from hex)
      rw [if_pos ⟨by simp [isStartRound], by simp⟩]
    | commitAnswer c n rid h =>
      obtain ⟨-, -, -, rfl⟩ :=
        commitAnswer_ok_inv (show commitAnswer s c n rid h = .ok s' from hex)
      rw [if_neg (fun hcon => by simp [isStartRound] at hcon)]
      rfl
    | revealAnswer c n rid ans salt =>
      obtain ⟨-, -, -, -, -, rfl⟩ :=
        revealAnswer_ok_inv (show revealAnswer hash s c n rid ans salt = .ok s' from hex)
      rw [if_neg (fun hcon => by simp [isStartRound] at hcon)]
      rfl
    | distributeRewards c n rid players =>
      obtain ⟨-, -, -, hloop⟩ :=
        distributeRewards_ok_inv (show distributeRewards s c n rid players = .ok s' from hex)
      obtain ⟨-, -, -, -, -, -, hcr⟩ := distributeLoop_ok_frame hloop
      rw [hcr, if_neg (fun hcon => by simp [isStartRound] at hcon)]
      rfl
    | emergencyEndRound c rid =>
      obtain ⟨-, rfl⟩ :=
        emergencyEndRound_ok_inv (show emergencyEndRound s c rid = .ok s' from hex)
      rw [if_neg (fun hcon => by simp [isStartRound] at hcon)]
      rfl

/-- Over a whole trace, `currentRoundId` advances by exactly the number of
successful `startNewRound` calls. -/
lemma applyOps_currentRoundId (hash : String → Nat) :
    ∀ (ops : List Op) (s : GameState),
      (applyOps hash s ops).currentRoundId
        = s.currentRoundId + succCount hash s isStartRound ops := by
  intro ops
  induction ops with
  | nil => intro s; rfl
  | cons op rest ih =>
    intro s
    rw [applyOps_cons, succCount_cons, ih (applyOp hash s op), applyOp_currentRoundId]
    omega

/-- A successful run of the reward loop implies the contract could afford
the whole payout, and characterises the resulting balances. -/
lemma distributeLoop_ok_balances {s s' : GameState} {roundId i : Nat} {players : List Nat}
    (h : distributeLoop s roundId players i = .ok s') :
    totalPayout s roundId players i ≤ s.contractBalance ∧
    s'.contractBalance = s.contractBalance - totalPayout s roundId players i ∧
    ∀ a, s'.tokenBalances a = s.tokenBalances a + totalOwed s roundId players i a := by
  rcases Nat.lt_or_ge s.contractBalance (totalPayout s roundId players i) with hlt | hge
  · rw [(distributeLoop_spec roundId players s i).2 hlt] at h
    exact absurd h (by simp)
  · obtain ⟨s'', hok, -, -, -, -, -, -, -, hcb, htb⟩ :=
      (distributeLoop_spec roundId players s i).1 hge
    rw [hok] at h
    obtain rfl : s'' = s' := (Except.ok.injEq _ _).mp h
    exact ⟨hge, hcb, htb⟩

/-! ## Concrete instances used by the witnesses -/

/-- A concrete executable stand-in for the environment's hash primitive,
used only to instantiate the parametric theorems at concrete inputs. -/
def demoHash (str : String) : Nat := str.length + 1

/-- Round 1 of the demo states: active, commit window `[0, 60)`. -/
def demoRound : Round :=
  { startTime := 0, endTime := 60, question := "2+2", correctAnswer := "4"
    isActive := true, totalPlayers := 1 }

/-- Round 1 active, player 7 committed the (arbitrary) non-sentinel hash 99. -/
def committedState : GameState :=
  { owner := 1
    currentRoundId := 1
    rounds := fun r => if r = 1 then demoRound else Round.default
    playerAnswers := fun r a =>
      if r = 1 ∧ a = 7 then
        { answerHash := 99, hasRevealed := false, isCorrect := false, commitTime := 5 }
      else PlayerAnswer.default
    playerScores := fun _ => 0
    playerStreaks := fun _ => 0
    lastPlayedRound := fun _ => 0
    contractBalance := 0
    tokenBalances := fun _ => 0 }

/-- Like `committedState` but the stored hash binds the answer `"4"` with
salt `"x"` under `demoHash`. -/
def matchedCommitState : GameState :=
  { committedState with
    playerAnswers := fun r a =>
      if r = 1 ∧ a = 7 then
        { answerHash := demoHash ("4" ++ "x"), hasRevealed := false
          isCorrect := false, commitTime := 5 }
      else PlayerAnswer.default }

/-- Like `committedState` but player 7 has already revealed. -/
def revealedState : GameState :=
  { committedState with
    playerAnswers := fun r a =>
      if r = 1 ∧ a = 7 then
        { answerHash := 99, hasRevealed := true, isCorrect := true, commitTime := 5 }
      else PlayerAnswer.default }

/-- Round 1 active with no commitments at all. -/
def freshState : GameState :=
  { committedState with playerAnswers := fun _ _ => PlayerAnswer.default }

/-- Reward-distribution scenario: player 11 revealed correct, player 12
committed but never revealed, player 13 revealed incorrect; the contract
holds 100 tokens. -/
def distState : GameState :=
  { committedState with
    playerAnswers := fun r a =>
      if r = 1 ∧ a = 11 then
        { answerHash := 99, hasRevealed := true, isCorrect := true, commitTime := 5 }
      else if r = 1 ∧ a = 12 then
        { answerHash := 98, hasRevealed := false, isCorrect := false, commitTime := 5 }
      else if r = 1 ∧ a = 13 then
        { answerHash := 97, hasRevealed := true, isCorrect := false, commitTime := 5 }
      else PlayerAnswer.default
    contractBalance := 100 * 10 ^ 18 }

/-- `distState` with an empty treasury, so any transfer fails. -/
def poorState : GameState :=
  { distState with contractBalance := 0 }

/-- Extract the success state of a call, with a fallback default. -/
def okState (e : Except GameError GameState) (d : GameState) : GameState :=
  match e with
  | .ok s => s
  | .error _ => d

/-! ## Claims -/

/-- C1: `revealAnswer(roundId, answer, salt)` succeeds only if
`hash(answer ++ salt)` equals the `answerHash` stored for
`(roundId, caller)`; when the call reaches the hash check and the recomputed
hash differs, it fails with `HashMismatch` and the chain-level state is
unchanged. -/
theorem C1_reveal_hash_binding (hash : String → Nat) (s : GameState)
    (caller now roundId : Nat) (answer salt : String) :
    (∀ s', revealAnswer hash s caller now roundId answer salt = .ok s' →
      (s.playerAnswers roundId caller).answerHash = hash (answer ++ salt))
    ∧ ((s.rounds roundId).isActive = true →
       (s.rounds roundId).endTime ≤ now →
       (s.playerAnswers roundId caller).answerHash ≠ 0 →
       (s.playerAnswers roundId caller).hasRevealed = false →
       (s.playerAnswers roundId caller).answerHash ≠ hash (answer ++ salt) →
       revealAnswer hash s caller now roundId answer salt = .error .HashMismatch
       ∧ applyOp hash s (.revealAnswer caller now roundId answer salt) = s) := by
  constructor
  · intro s' hok
    exact (revealAnswer_ok_inv hok).2.2.2.2.1
  · intro h1 h2 h3 h4 h5
    have herr : revealAnswer hash s caller now roundId answer salt = .error .HashMismatch := by
      unfold revealAnswer
      rw [if_neg (by simp [h1]), if_neg (not_not_intro h2), if_neg h3,
        if_neg (by simp [h4]), if_pos h5]
    exact ⟨herr, applyOp_of_error (show execOp hash s
      (.revealAnswer caller now roundId answer salt) = .error .HashMismatch from herr)⟩

/-- Witness for C1: player 7 committed `99` but `demoHash ("4" ++ "x") = 3`,
so the reveal fails with `HashMismatch` and the state is untouched. -/
theorem C1_reveal_hash_binding_witness :
    revealAnswer demoHash committedState 7 60 1 "4" "x" = .error .HashMismatch
    ∧ applyOp demoHash committedState (.revealAnswer 7 60 1 "4" "x") = committedState :=
  (C1_reveal_hash_binding demoHash committedState 7 60 1 "4" "x").2
    rfl (by decide) (by decide) rfl (by decide)

/-- C2: on an active round past its end time, a funded `distributeRewards`
succeeds and credits every address the sum, over its entries, of the
per-entry rule `entryReward`: unrevealed entries are skipped with no payout
and no error, a revealed correct entry at position `i` earns
`CORRECT_REWARD` plus `BONUS_REWARD` exactly when `i < 5` (positions, not
earlier correctness, decide the bonus), and a revealed incorrect entry
earns `PARTICIPATION_REWARD`. -/
theorem C2_distribute_pays_per_entry (s : GameState) (caller now roundId : Nat)
    (players : List Nat)
    (hcaller : caller = s.owner)
    (hact : (s.rounds roundId).isActive = true)
    (htime : (s.rounds roundId).endTime ≤ now)
    (hfunds : totalPayout s roundId players 0 ≤ s.contractBalance) :
    ∃ s', distributeRewards s caller now roundId players = .ok s' ∧
      (∀ a, s'.tokenBalances a = s.tokenBalances a + totalOwed s roundId players 0 a)
      ∧ (∀ i p, entryReward s roundId i p =
          if (s.playerAnswers roundId p).hasRevealed then
            (if (s.playerAnswers roundId p).isCorrect then
              CORRECT_REWARD + (if i < 5 then BONUS_REWARD else 0)
            else PARTICIPATION_REWARD)
          else 0) := by
  have hwrap : distributeRewards s caller now roundId players
      = distributeLoop s roundId players 0 := by
    unfold distributeRewards
    rw [if_neg (by simp [hcaller]), if_neg (by simp [hact]), if_neg (not_not_intro htime)]
  obtain ⟨s', hok, -, -, -, -, -, -, -, -, htb⟩ :=
    (distributeLoop_spec roundId players s 0).1 hfunds
  exact ⟨s', by rw [hwrap]; exact hok, htb, fun i p => rfl⟩

/-- Witness for C2: the scenario of `distState` with entries
`[11, 12, 13]` — player 11 (revealed correct, position 0) is owed
`CORRECT_REWARD + BONUS_REWARD`, player 12 (never revealed) is owed 0, and
player 13 (revealed incorrect) is owed `PARTICIPATION_REWARD`. -/
theorem C2_distribute_pays_per_entry_witness :
    ∃ s', distributeRewards distState 1 60 1 [11, 12, 13] = .ok s' ∧
      (∀ a, s'.tokenBalances a
        = distState.tokenBalances a + totalOwed distState 1 [11, 12, 13] 0 a)
      ∧ (∀ i p, entryReward distState 1 i p =
          if (distState.playerAnswers 1 p).hasRevealed then
            (if (distState.playerAnswers 1 p).isCorrect then
              CORRECT_REWARD + (if i < 5 then BONUS_REWARD else 0)
            else PARTICIPATION_REWARD)
          else 0) :=
  C2_distribute_pays_per_entry distState 1 60 1 [11, 12, 13]
    rfl rfl (by decide) (by decide)

/-- The state after player 7 commits the all-zero sentinel hash to round 1
of `freshState`. -/
def zeroCommittedState : GameState :=
  okState (commitAnswer freshState 7 10 1 0) freshState

/-- Counterexample to C3 as stated: committing the all-zero sentinel hash
succeeds, and a second commit by the same player for the same round also
succeeds instead of failing with `AlreadyCommitted`. -/
theorem C3_single_commit_reveal_counterexample :
    commitAnswer freshState 7 10 1 0 = .ok zeroCommittedState
    ∧ isOk (commitAnswer zeroCommittedState 7 20 1 0) = true
    ∧ commitAnswer zeroCommittedState 7 20 1 0 ≠ .error .AlreadyCommitted := by
  refine ⟨rfl, rfl, ?_⟩
  intro hcon
  have htrue : isOk (commitAnswer zeroCommittedState 7 20 1 0) = true := rfl
  rw [hcon] at htrue
  exact absurd htrue (by simp)

/-- C3 (amended): in every operation sequence from every state, at most one
`commitAnswer` with a non-sentinel hash succeeds per `(roundId, address)`
and at most one `revealAnswer` succeeds per `(roundId, address)`; once a
non-sentinel hash is stored any further commit reverts (with
`AlreadyCommitted` when it reaches the commitment check), and once revealed
any further reveal reverts (with `AlreadyRevealed` when it reaches the
reveal check).  Commits carrying the all-zero sentinel are excluded: they
leave the slot indistinguishable from "no commitment" (see C4). -/
theorem C3_single_commit_reveal_amended (hash : String → Nat) (s : GameState)
    (ops : List Op) (r a now h : Nat) (answer salt : String) :
    succCount hash s (isCommitFor r a) ops ≤ 1
    ∧ succCount hash s (isRevealFor r a) ops ≤ 1
    ∧ ((s.playerAnswers r a).answerHash ≠ 0 →
        isOk (commitAnswer s a now r h) = false)
    ∧ ((s.playerAnswers r a).hasRevealed = true →
        isOk (revealAnswer hash s a now r answer salt) = false)
    ∧ ((s.playerAnswers r a).answerHash ≠ 0 →
       (s.rounds r).isActive = true → now < (s.rounds r).endTime →
        commitAnswer s a now r h = .error .AlreadyCommitted)
    ∧ ((s.playerAnswers r a).hasRevealed = true →
       (s.playerAnswers r a).answerHash ≠ 0 →
       (s.rounds r).isActive = true → (s.rounds r).endTime ≤ now →
        revealAnswer hash s a now r answer salt = .error .AlreadyRevealed) := by
  refine ⟨succCount_commit_le_one hash r a ops s, succCount_reveal_le_one hash r a ops s,
    fun hne => commitAnswer_blocked hne, fun hrev => revealAnswer_blocked hrev,
    fun hne hact htime => ?_, fun hrev hne hact htime => ?_⟩
  · unfold commitAnswer
    rw [if_neg (by simp [hact]), if_neg (not_not_intro htime), if_pos hne]
  · unfold revealAnswer
    rw [if_neg (by simp [hact]), if_neg (not_not_intro htime), if_neg hne,
      if_pos hrev]

/-- Witness for C3 (amended) at concrete inputs: a second non-sentinel
commit fails with `AlreadyCommitted` inside the window, and a second reveal
fails with `AlreadyRevealed` after the window. -/
theorem C3_single_commit_reveal_amended_witness :
    succCount demoHash committedState (isCommitFor 1 7) [] ≤ 1
    ∧ commitAnswer committedState 7 10 1 55 = .error .AlreadyCommitted
    ∧ revealAnswer demoHash revealedState 7 60 1 "4" "x" = .error .AlreadyRevealed :=
  ⟨(C3_single_commit_reveal_amended demoHash committedState [] 1 7 10 55 "4" "x").1,
   (C3_single_commit_reveal_amended demoHash committedState [] 1 7 10 55 "4" "x").2.2.2.2.1
     (by decide) rfl (by decide),
   (C3_single_commit_reveal_amended demoHash revealedState [] 1 7 60 55 "4" "x").2.2.2.2.2
     rfl (by decide) rfl (by decide)⟩

/-- C4: inside the commit window of an active round, committing the
all-zero sentinel hash succeeds and increments `totalPlayers`, yet leaves
the slot indistinguishable from "no commitment": `hasCommitted` stays
false and a second sentinel commit by the same caller succeeds again,
incrementing `totalPlayers` a second time. -/
theorem C4_sentinel_commit (s : GameState) (caller now now₂ roundId : Nat)
    (hact : (s.rounds roundId).isActive = true)
    (htime : now < (s.rounds roundId).endTime)
    (htime₂ : now₂ < (s.rounds roundId).endTime)
    (hfresh : (s.playerAnswers roundId caller).answerHash = 0) :
    ∃ s₁, commitAnswer s caller now roundId 0 = .ok s₁ ∧
      (s₁.rounds roundId).totalPlayers = (s.rounds roundId).totalPlayers + 1 ∧
      hasCommitted s₁ caller roundId = false ∧
      ∃ s₂, commitAnswer s₁ caller now₂ roundId 0 = .ok s₂ ∧
        (s₂.rounds roundId).totalPlayers = (s.rounds roundId).totalPlayers + 2 := by
  set s₁ : GameState := { s with
    playerAnswers := fun r a =>
      if r = roundId ∧ a = caller then
        { answerHash := 0, hasRevealed := false, isCorrect := false, commitTime := now }
      else s.playerAnswers r a
    rounds := fun r =>
      if r = roundId then
        { s.rounds r with totalPlayers := (s.rounds r).totalPlayers + 1 }
      else s.rounds r } with hs₁
  have h₁ : commitAnswer s caller now roundId 0 = .ok s₁ := by
    unfold commitAnswer
    rw [if_neg (by simp [hact]), if_neg (not_not_intro htime),
      if_neg (not_not_intro hfresh)]
  have hround : s₁.rounds roundId
      = { s.rounds roundId with totalPlayers := (s.rounds roundId).totalPlayers + 1 } := by
    rw [hs₁]
    simp
  have hfresh₁ : (s₁.playerAnswers roundId caller).answerHash = 0 := by
    rw [hs₁]
    simp
  have hact₁ : (s₁.rounds roundId).isActive = true := by
    rw [hround]
    exact hact
  have hend₁ : (s₁.rounds roundId).endTime = (s.rounds roundId).endTime := by
    rw [hround]
  set s₂ : GameState := { s₁ with
    playerAnswers := fun r a =>
      if r = roundId ∧ a = caller then
        { answerHash := 0, hasRevealed := false, isCorrect := false, commitTime := now₂ }
      else s₁.playerAnswers r a
    rounds := fun r =>
      if r = roundId then
        { s₁.rounds r with totalPlayers := (s₁.rounds r).totalPlayers + 1 }
      else s₁.rounds r } with hs₂
  have h₂ : commitAnswer s₁ caller now₂ roundId 0 = .ok s₂ := by
    unfold commitAnswer
    rw [if_neg (by simp [hact₁, hact]),
      if_neg (by rw [hend₁]; exact not_not_intro htime₂),
      if_neg (not_not_intro hfresh₁)]
  refine ⟨s₁, h₁, ?_, ?_, s₂, h₂, ?_⟩
  · rw [hround]
  · simp [hasCommitted, hfresh₁]
  · have : s₂.rounds roundId
        = { s₁.rounds roundId with totalPlayers := (s₁.rounds roundId).totalPlayers + 1 } := by
      rw [hs₂]
      simp
    rw [this, hround]

/-- Witness for C4: from `freshState`, two successive sentinel commits by
player 7 both succeed, `hasCommitted` stays false, and `totalPlayers` is
bumped twice. -/
theorem C4_sentinel_commit_witness :
    ∃ s₁, commitAnswer freshState 7 10 1 0 = .ok s₁ ∧
      (s₁.rounds 1).totalPlayers = (freshState.rounds 1).totalPlayers + 1 ∧
      hasCommitted s₁ 7 1 = false ∧
      ∃ s₂, commitAnswer s₁ 7 20 1 0 = .ok s₂ ∧
        (s₂.rounds 1).totalPlayers = (freshState.rounds 1).totalPlayers + 2 :=
  C4_sentinel_commit freshState 7 10 20 1 rfl (by decide) (by decide) (by decide)

/-- C5: a successful reveal is judged correct exactly when
`hash(answer) = hash(correctAnswer)`; a correct reveal adds 1 to both score
and streak, an incorrect one zeroes the streak and leaves the score alone;
either way `lastPlayedRound` becomes the round id; and no operation of the
system ever decreases any score. -/
theorem C5_reveal_scoring (hash : String → Nat) (s s' : GameState)
    (caller now roundId : Nat) (answer salt : String)
    (hok : revealAnswer hash s caller now roundId answer salt = .ok s') :
    ((s'.playerAnswers roundId caller).isCorrect = true ↔
        hash answer = hash (s.rounds roundId).correctAnswer)
    ∧ (hash answer = hash (s.rounds roundId).correctAnswer →
        s'.playerScores caller = s.playerScores caller + 1
        ∧ s'.playerStreaks caller = s.playerStreaks caller + 1)
    ∧ (hash answer ≠ hash (s.rounds roundId).correctAnswer →
        s'.playerStreaks caller = 0 ∧ s'.playerScores caller = s.playerScores caller)
    ∧ s'.lastPlayedRound caller = roundId
    ∧ (∀ (t : GameState) (op : Op) (a : Nat),
        t.playerScores a ≤ (applyOp hash t op).playerScores a) := by
  obtain ⟨-, -, -, -, -, rfl⟩ := revealAnswer_ok_inv hok
  refine ⟨by simp, fun hcorr => ⟨by simp [hcorr], by simp [hcorr]⟩,
    fun hne => ⟨by simp [hne], by simp [hne]⟩, by simp,
    fun t op a => applyOp_score_mono hash t op a⟩

/-- The state after player 7 correctly reveals `"4"` (salt `"x"`) in
`matchedCommitState`. -/
def correctRevealState : GameState :=
  okState (revealAnswer demoHash matchedCommitState 7 60 1 "4" "x") matchedCommitState

/-- Witness for C5: the concrete correct reveal bumps score and streak of
player 7 from 0 to 1 and records round 1 as last played. -/
theorem C5_reveal_scoring_witness :
    correctRevealState.playerScores 7 = matchedCommitState.playerScores 7 + 1
    ∧ correctRevealState.playerStreaks 7 = matchedCommitState.playerStreaks 7 + 1
    ∧ correctRevealState.lastPlayedRound 7 = 1
    ∧ ((correctRevealState.playerAnswers 1 7).isCorrect = true ↔
        demoHash "4" = demoHash (matchedCommitState.rounds 1).correctAnswer) :=
  ⟨((C5_reveal_scoring demoHash matchedCommitState correctRevealState 7 60 1 "4" "x"
      rfl).2.1 (by decide)).1,
   ((C5_reveal_scoring demoHash matchedCommitState correctRevealState 7 60 1 "4" "x"
      rfl).2.1 (by decide)).2,
   (C5_reveal_scoring demoHash matchedCommitState correctRevealState 7 60 1 "4" "x"
      rfl).2.2.2.1,
   (C5_reveal_scoring demoHash matchedCommitState correctRevealState 7 60 1 "4" "x"
      rfl).1⟩

/-- C6: `revealAnswer` fails with `InvalidState` whenever the round is
inactive or `now < endTime`, and `commitAnswer` fails with `InvalidState`
whenever the round is inactive (e.g. after `emergencyEndRound`) or
`now ≥ endTime`; consequently a commit can succeed only strictly inside the
commit window of an active round and a reveal only at or after `endTime` on
a still-active round. -/
theorem C6_window_guards (hash : String → Nat) (s : GameState)
    (caller now roundId answerHash : Nat) (answer salt : String) :
    ((¬ (s.rounds roundId).isActive = true ∨ now < (s.rounds roundId).endTime) →
      revealAnswer hash s caller now roundId answer salt = .error .InvalidState)
    ∧ ((¬ (s.rounds roundId).isActive = true ∨ (s.rounds roundId).endTime ≤ now) →
      commitAnswer s caller now roundId answerHash = .error .InvalidState)
    ∧ (∀ s', commitAnswer s caller now roundId answerHash = .ok s' →
        (s.rounds roundId).isActive = true ∧ now < (s.rounds roundId).endTime)
    ∧ (∀ s', revealAnswer hash s caller now roundId answer salt = .ok s' →
        (s.rounds roundId).isActive = true ∧ (s.rounds roundId).endTime ≤ now) := by
  refine ⟨?_, ?_, ?_, ?_⟩
  · intro hbad
    by_cases hact : (s.rounds roundId).isActive = true
    · have htime : now < (s.rounds roundId).endTime := by
        rcases hbad with hb | hb
        · exact absurd hact hb
        · exact hb
      unfold revealAnswer
      rw [if_neg (by simp [hact]), if_pos (by omega)]
    · unfold revealAnswer
      rw [if_pos (bool_ne_true hact)]
  · intro hbad
    by_cases hact : (s.rounds roundId).isActive = true
    · have htime : (s.rounds roundId).endTime ≤ now := by
        rcases hbad with hb | hb
        · exact absurd hact hb
        · exact hb
      unfold commitAnswer
      rw [if_neg (by simp [hact]), if_pos (by omega)]
    · unfold commitAnswer
      rw [if_pos (bool_ne_true hact)]
  · intro s' hok
    obtain ⟨hact, htime, -, -⟩ := commitAnswer_ok_inv hok
    exact ⟨hact, htime⟩
  · intro s' hok
    obtain ⟨hact, htime, -, -, -, -⟩ := revealAnswer_ok_inv hok
    exact ⟨hact, htime⟩

/-- Witness for C6: at `now = 59 < endTime = 60` the reveal on round 1 of
`committedState` fails with `InvalidState`, and at `now = 60 ≥ endTime` the
commit fails with `InvalidState`. -/
theorem C6_window_guards_witness :
    revealAnswer demoHash committedState 7 59 1 "4" "x" = .error .InvalidState
    ∧ commitAnswer committedState 8 60 1 42 = .error .InvalidState :=
  ⟨(C6_window_guards demoHash committedState 7 59 1 42 "4" "x").1 (Or.inr (by decide)),
   (C6_window_guards demoHash committedState 8 60 1 42 "4" "x").2.1 (Or.inr (by decide))⟩

/-- C7: a successful `distributeRewards` leaves every piece of game state
(rounds, commitments, scores, streaks, last-played) unchanged — only token
balances move — so repeating the call with the same arguments succeeds on
the same game state and pays every listed revealed player the same amounts
again, doubling the total payout. -/
theorem C7_distribute_repays (s s₁ s₂ : GameState) (caller now roundId : Nat)
    (players : List Nat)
    (h₁ : distributeRewards s caller now roundId players = .ok s₁)
    (h₂ : distributeRewards s₁ caller now roundId players = .ok s₂) :
    s₁.rounds = s.rounds ∧ s₁.playerAnswers = s.playerAnswers
    ∧ s₁.playerScores = s.playerScores ∧ s₁.playerStreaks = s.playerStreaks
    ∧ s₁.lastPlayedRound = s.lastPlayedRound
    ∧ (∀ a, s₁.tokenBalances a = s.tokenBalances a + totalOwed s roundId players 0 a)
    ∧ (∀ a, s₂.tokenBalances a = s.tokenBalances a + 2 * totalOwed s roundId players 0 a) := by
  obtain ⟨-, -, -, hloop₁⟩ := distributeRewards_ok_inv h₁
  obtain ⟨-, -, -, hloop₂⟩ := distributeRewards_ok_inv h₂
  obtain ⟨hr, hpa, hsc, hst, hlp, -, -⟩ := distributeLoop_ok_frame hloop₁
  obtain ⟨-, -, htb₁⟩ := distributeLoop_ok_balances hloop₁
  obtain ⟨-, -, htb₂⟩ := distributeLoop_ok_balances hloop₂
  refine ⟨hr, hpa, hsc, hst, hlp, htb₁, fun a => ?_⟩
  have howed : totalOwed s₁ roundId players 0 a = totalOwed s roundId players 0 a :=
    totalOwed_congr hpa roundId players 0 a
  rw [htb₂ a, howed, htb₁ a]
  omega

/-- The state after one reward distribution over `[11, 12, 13]` in
`distState`. -/
def distOnceState : GameState :=
  okState (distributeRewards distState 1 60 1 [11, 12, 13]) distState

/-- The state after repeating that distribution. -/
def distTwiceState : GameState :=
  okState (distributeRewards distOnceState 1 60 1 [11, 12, 13]) distOnceState

/-- Witness for C7: both concrete calls succeed and the second doubles
every payout of the first. -/
theorem C7_distribute_repays_witness :
    distributeRewards distState 1 60 1 [11, 12, 13] = .ok distOnceState
    ∧ distributeRewards distOnceState 1 60 1 [11, 12, 13] = .ok distTwiceState
    ∧ (∀ a, distTwiceState.tokenBalances a
        = distState.tokenBalances a + 2 * totalOwed distState 1 [11, 12, 13] 0 a) :=
  ⟨rfl, rfl,
   (C7_distribute_repays distState distOnceState distTwiceState 1 60 1 [11, 12, 13]
      rfl rfl).2.2.2.2.2.2⟩

/-- C8: an owner call of `emergencyEndRound(roundId)` succeeds with no
further precondition, clears exactly that round's `isActive` flag and
changes nothing else — not the round's other fields, not other rounds, not
commitments, scores, streaks, last-played, or balances; conversely no
operation other than `emergencyEndRound` ever turns an active round
inactive, whatever the timestamp, so a round can be active and past its
end time at once. -/
theorem C8_emergency_frame (hash : String → Nat) (s : GameState) (caller roundId : Nat)
    (hown : caller = s.owner) :
    (∃ s', emergencyEndRound s caller roundId = .ok s'
      ∧ (s'.rounds roundId).isActive = false
      ∧ (∀ r, r ≠ roundId → s'.rounds r = s.rounds r)
      ∧ (s'.rounds roundId).startTime = (s.rounds roundId).startTime
      ∧ (s'.rounds roundId).endTime = (s.rounds roundId).endTime
      ∧ (s'.rounds roundId).question = (s.rounds roundId).question
      ∧ (s'.rounds roundId).correctAnswer = (s.rounds roundId).correctAnswer
      ∧ (s'.rounds roundId).totalPlayers = (s.rounds roundId).totalPlayers
      ∧ s'.playerAnswers = s.playerAnswers
      ∧ s'.playerScores = s.playerScores
      ∧ s'.playerStreaks = s.playerStreaks
      ∧ s'.lastPlayedRound = s.lastPlayedRound
      ∧ s'.contractBalance = s.contractBalance
      ∧ s'.tokenBalances = s.tokenBalances
      ∧ s'.currentRoundId = s.currentRoundId
      ∧ s'.owner = s.owner)
    ∧ (∀ (t : GameState) (op : Op) (r : Nat), isEmergencyEnd op = false →
        (t.rounds r).isActive = true → ((applyOp hash t op).rounds r).isActive = true) := by
  constructor
  · set s' : GameState := { s with
      rounds := fun r =>
        if r = roundId then { s.rounds r with isActive := false } else s.rounds r } with hs'
    have hok : emergencyEndRound s caller roundId = .ok s' := by
      unfold emergencyEndRound
      rw [if_neg (not_not_intro hown)]
    have hround : s'.rounds roundId = { s.rounds roundId with isActive := false } := by
      rw [hs']
      simp
    refine ⟨s', hok, by rw [hround], fun r hr => ?_, by rw [hround], by rw [hround],
      by rw [hround], by rw [hround], by rw [hround], rfl, rfl, rfl, rfl, rfl, rfl, rfl, rfl⟩
    rw [hs']
    simp [hr]
  · exact fun t op r hop hact => applyOp_active_persists hash t op r hop hact

/-- Witness for C8: the owner emergency-ends round 1 of `committedState`;
the round goes inactive while its end time and the stored commitment are
untouched. -/
theorem C8_emergency_frame_witness :
    ∃ s', emergencyEndRound committedState 1 1 = .ok s'
      ∧ (s'.rounds 1).isActive = false
      ∧ (s'.rounds 1).endTime = (committedState.rounds 1).endTime
      ∧ s'.playerAnswers = committedState.playerAnswers := by
  obtain ⟨s', hok, hinact, -, -, hend, -, -, -, hpa, -⟩ :=
    (C8_emergency_frame demoHash committedState 1 1 rfl).1
  exact ⟨s', hok, hinact, hend, hpa⟩

/-- C9: every failing call reverts atomically — the chain-level state after
an error is exactly the pre-call state; in particular, when the
value-transfer collaborator cannot pay the rewards owed inside
`distributeRewards`, the whole call fails with `TransferFailed` and no
payout of that call takes effect. -/
theorem C9_atomic_failure (hash : String → Nat) (s : GameState) (op : Op)
    (caller now roundId : Nat) (players : List Nat) :
    (∀ e, execOp hash s op = .error e → applyOp hash s op = s)
    ∧ (caller = s.owner → (s.rounds roundId).isActive = true →
       (s.rounds roundId).endTime ≤ now →
       s.contractBalance < totalPayout s roundId players 0 →
       distributeRewards s caller now roundId players = .error .TransferFailed
       ∧ applyOp hash s (.distributeRewards caller now roundId players) = s) := by
  constructor
  · exact fun e he => applyOp_of_error he
  · intro hown hact htime hpoor
    have herr : distributeRewards s caller now roundId players = .error .TransferFailed := by
      unfold distributeRewards
      rw [if_neg (by simp [hown]), if_neg (by simp [hact]), if_neg (not_not_intro htime)]
      exact (distributeLoop_spec roundId players s 0).2 hpoor
    exact ⟨herr, applyOp_of_error (show execOp hash s
      (.distributeRewards caller now roundId players) = .error .TransferFailed from herr)⟩

/-- Witness for C9: with an empty treasury (`poorState`) the distribution
over `[11]` fails with `TransferFailed` and leaves the state untouched. -/
theorem C9_atomic_failure_witness :
    distributeRewards poorState 1 60 1 [11] = .error .TransferFailed
    ∧ applyOp demoHash poorState (.distributeRewards 1 60 1 [11]) = poorState :=
  (C9_atomic_failure demoHash poorState (.distributeRewards 1 60 1 [11]) 1 60 1 [11]).2
    rfl rfl (by decide) (by decide)

/-- C10: round ids are allocated only by `startNewRound`, consecutively
starting at 1: from deployment, `currentRoundId` equals the number of
successful `startNewRound` calls and each success allocates id
`currentRoundId + 1` with `startTime = now`, `endTime = now + 60`,
`active = true`, `totalPlayers = 0`, overwriting no other round; a
non-owner caller gets `Unauthorized`. -/
theorem C10_round_ids (hash : String → Nat) (s : GameState)
    (caller now qid : Nat) (question correctAnswer : String)
    (ops : List Op) (owner bal : Nat) :
    ROUND_DURATION = 60
    ∧ (caller ≠ s.owner →
        startNewRound s caller now qid question correctAnswer = .error .Unauthorized)
    ∧ (caller = s.owner →
        ∃ s', startNewRound s caller now qid question correctAnswer = .ok s'
          ∧ s'.currentRoundId = s.currentRoundId + 1
          ∧ s'.rounds (s.currentRoundId + 1)
              = { startTime := now, endTime := now + ROUND_DURATION
                  question := question, correctAnswer := correctAnswer
                  isActive := true, totalPlayers := 0 }
          ∧ (∀ r, r ≠ s.currentRoundId + 1 → s'.rounds r = s.rounds r))
    ∧ (∀ (t : GameState) (op : Op),
        (applyOp hash t op).currentRoundId
          = t.currentRoundId + (if isStartRound op ∧ isOk (execOp hash t op) then 1 else 0))
    ∧ (initState owner bal).currentRoundId = 0
    ∧ (applyOps hash (initState owner bal) ops).currentRoundId
        = succCount hash (initState owner bal) isStartRound ops := by
  refine ⟨rfl, ?_, ?_, fun t op => applyOp_currentRoundId hash t op, rfl, ?_⟩
  · intro hne
    unfold startNewRound
    rw [if_pos hne]
  · intro hown
    set s' : GameState := { s with
      currentRoundId := s.currentRoundId + 1
      rounds := fun r =>
        if r = s.currentRoundId + 1 then
          { startTime := now, endTime := now + ROUND_DURATION
            question := question, correctAnswer := correctAnswer
            isActive := true, totalPlayers := 0 }
        else s.rounds r } with hs'
    have hok : startNewRound s caller now qid question correctAnswer = .ok s' := by
      unfold startNewRound
      rw [if_neg (not_not_intro hown)]
    refine ⟨s', hok, rfl, ?_, fun r hr => ?_⟩
    · rw [hs']
      simp
    · rw [hs']
      simp [hr]
  · rw [applyOps_currentRoundId hash ops (initState owner bal)]
    simp [initState]

/-- Witness for C10: on `freshState` (owner 1, `currentRoundId = 1`) a call
by 2 is `Unauthorized` while the owner's call creates round 2. -/
theorem C10_round_ids_witness :
    startNewRound freshState 2 100 5 "q" "a" = .error .Unauthorized
    ∧ (∃ s', startNewRound freshState 1 100 5 "q" "a" = .ok s'
        ∧ s'.currentRoundId = freshState.currentRoundId + 1) := by
  refine ⟨(C10_round_ids demoHash freshState 2 100 5 "q" "a" [] 0 0).2.1 (by decide), ?_⟩
  obtain ⟨s', hok, hcr, -⟩ :=
    (C10_round_ids demoHash freshState 1 100 5 "q" "a" [] 0 0).2.2.1 rfl
  exact ⟨s', hok, hcr⟩

end TriviaGame
